import Mathlib

/-!
Shallow embedding of the janki Mahjong-league scoring core
(src/scores/services/calculator.py, src/scores/models.py, src/teams/models.py).

Conventions of the embedding:
* Database CharField `session_id` values and primary keys are modelled as `ℕ`.
* Python float arithmetic is modelled with exact rationals `ℚ`; every
  arithmetic fact proved here (divisions by 1000, halves of integers,
  multiples of 30) is exactly representable in binary floating point as well.
* A Django queryset is modelled as the `List` of its rows; the list order of
  the model state stands for the queryset iteration order.
* `int(x)` applied by Django's `IntegerField.get_prep_value` when a float is
  written to an integer column truncates toward zero, modelled by `pyInt`.
-/

namespace Janki

/-- Scoring configuration of a team (src/teams/models.py, class Team):
`target_point`, the four uma IntegerFields and `chombo_enabled`. -/
structure Team where
  id : ℕ
  targetPoint : ℤ
  umaFirst : ℤ
  umaSecond : ℤ
  umaThird : ℤ
  umaFourth : ℤ
  chomboEnabled : Bool
deriving Repr, DecidableEq

/-- The dictionary `uma_map = {1: team.uma_first, ..., 4: team.uma_fourth}`
together with the `.get(pos, 0)` default used everywhere in calculator.py. -/
def Team.umaMap (t : Team) (pos : ℤ) : ℤ :=
  if pos = 1 then t.umaFirst
  else if pos = 2 then t.umaSecond
  else if pos = 3 then t.umaThird
  else if pos = 4 then t.umaFourth
  else 0

/-- A team member (src/teams/models.py, class Member). -/
structure Member where
  id : ℕ
  teamId : ℕ
deriving Repr, DecidableEq

/-- A persisted RawScore row (src/scores/models.py, class RawScore).
`teamId` caches the owning member's team (the `member__team` join used by
every queryset filter).  `placement` is a nullable IntegerField: writing the
possibly fractional Python placement to it truncates it to an integer.
`createdYear`/`createdMonth` model the `created_at` timestamp granularity
used by `get_team_standings_by_month`. -/
structure RawScore where
  memberId : ℕ
  teamId : ℕ
  score : ℤ
  chombo : ℕ
  sessionId : ℕ
  placement : Option ℤ
  createdYear : ℕ
  createdMonth : ℕ
deriving Repr, DecidableEq

/-- An in-memory RawScore Python object inside `submit_session_scores`,
after `raw_score.placement = ...` was assigned: the placement is still the
exact (possibly fractional) float, truncation only happens at the INSERT. -/
structure PendingScore where
  memberId : ℕ
  teamId : ℕ
  score : ℤ
  chombo : ℕ
  sessionId : ℕ
  placement : ℚ
deriving Repr, DecidableEq

/-- Persistent state: the Member table and the RawScore table. -/
structure DB where
  members : List Member
  scores : List RawScore
deriving Repr, DecidableEq

/-- One entry of the `score_data` argument:
`{member_id: ..., score: ..., chombo: ...}` (chombo defaulted to 0). -/
structure Entry where
  memberId : ℕ
  score : ℤ
  chombo : ℕ
deriving Repr, DecidableEq

/-- Errors surfaced by the mutation paths: Django `ValidationError` raised by
the service code or `full_clean`, versus a database `IntegrityError` raised
when an INSERT violates the `unique_together ['member', 'session_id']`
constraint. -/
inductive Err where
  | validation : Err
  | integrity : Err
deriving Repr, DecidableEq

/-- Python `int(x)` for a float: truncation toward zero, as applied by
`IntegerField.get_prep_value` when a row is written. -/
def pyInt (q : ℚ) : ℤ := q.num.tdiv q.den

/-- Python's `sorted(l, key=k, reverse=True)`: a stable descending sort.
`List.insertionSort` with relation `k b ≤ k a` places an earlier element
before a later element with an equal key, exactly like Python's stable
sort. -/
def sortDescBy {α κ : Type} [LinearOrder κ] (k : α → κ) (l : List α) : List α :=
  List.insertionSort (fun a b => k b ≤ k a) l

/-- `sorted(scores, reverse=True)` on plain score values. -/
def sortDesc (l : List ℤ) : List ℤ := sortDescBy id l

/-- `sum(range(r + 1, r + k + 1)) / k`: the shared placement of a tie
cluster of `k` players whose first index in the descending sort is `r`
(0-based), as computed in calculator.py lines 270-271, 138-140, 364-366. -/
def tieAvg (r k : ℕ) : ℚ :=
  (((List.range k).map (fun j : ℕ => ((r : ℚ) + 1 + (j : ℚ)))).sum) / k

/-- `len([s for s in sorted_scores if s.score == v])`: size of the tie
cluster of value `v`. -/
def tieCount (sortedScores : List ℤ) (v : ℤ) : ℕ :=
  (sortedScores.filter (fun x => x = v)).length

/-- `next(i for i, s in enumerate(sorted_scores) if s.score == v)`:
0-based index of the first element of the cluster. -/
def firstTiedIdx (sortedScores : List ℤ) (v : ℤ) : ℕ :=
  sortedScores.findIdx (fun x => x = v)

/-- The placement the submit path assigns to a row whose score is `v`
(calculator.py lines 263-275).  For an untied row the source uses the
enumerate index `i + 1` of the row itself, which equals the index of its
(unique) score value in the sorted list. -/
def resolvedPlacement (sortedScores : List ℤ) (v : ℤ) : ℚ :=
  let k := tieCount sortedScores v
  if 1 < k then tieAvg (firstTiedIdx sortedScores v) k
  else ((firstTiedIdx sortedScores v : ℚ) + 1)

/-- The tie-averaged uma of calculator.py lines 153-159, 379-390:
average of `uma_map[pos]` over the cluster's 1-based positions for a tie,
`uma_map.get(int(placement), 0)` otherwise. -/
def resolvedUma (t : Team) (sortedScores : List ℤ) (v : ℤ) (placement : ℚ) : ℚ :=
  let k := tieCount sortedScores v
  if 1 < k then
    let r := firstTiedIdx sortedScores v
    (((List.range k).map (fun j : ℕ => ((t.umaMap ((r : ℤ) + 1 + (j : ℤ)) : ℤ) : ℚ))).sum) / k
  else ((t.umaMap (pyInt placement) : ℚ))

/-- Membership check `Member.objects.get(id=member_id, team=team)` of
calculator.py lines 243-246 (as a Boolean: found or DoesNotExist). -/
def memberInTeam (db : DB) (teamId mid : ℕ) : Bool :=
  db.members.any (fun m => m.id = mid && m.teamId = teamId)

/-- `RawScore.clean` (models.py lines 31-41): does this member already have
a persisted row for this session?  Only the database is consulted, so
in-memory sibling rows of the same un-flushed batch are invisible here. -/
def memberHasRow (db : DB) (teamId sessionId mid : ℕ) : Bool :=
  db.scores.any (fun r => r.teamId = teamId && r.sessionId = sessionId && r.memberId = mid)

/-- All RawScore rows of one session of one team:
`RawScore.objects.filter(member__team=team, session_id=session_id)`. -/
def sessionScores (db : DB) (teamId sessionId : ℕ) : List RawScore :=
  db.scores.filter (fun r => r.teamId = teamId && r.sessionId = sessionId)

/-- The in-memory RawScore objects built by the loop of
`submit_session_scores` (calculator.py lines 232-275), after the placement
assignment over the descending sort of the batch.  For an untied object the
source assigns `i + 1` from its enumerate position, which coincides with
`firstTiedIdx` of its unique score value. -/
def mkPendingScores (t : Team) (sessionId : ℕ) (scoreData : List Entry) :
    List PendingScore :=
  let sortedScores := sortDesc (scoreData.map (·.score))
  scoreData.map (fun e =>
    ⟨e.memberId, t.id, e.score, e.chombo, sessionId,
      resolvedPlacement sortedScores e.score⟩)

/-- Writing one in-memory object to the database
(`RawScore.objects.bulk_create`): the float placement passes through
`IntegerField.get_prep_value`, i.e. `int(placement)`. -/
def PendingScore.toRow (p : PendingScore) (now : ℕ × ℕ) : RawScore :=
  ⟨p.memberId, p.teamId, p.score, p.chombo, p.sessionId,
    some (pyInt p.placement), now.1, now.2⟩

/-- `submit_session_scores(session_id, team, score_data, session_date)`
(calculator.py lines 212-284).  Validation raises `ValidationError`; the
final `bulk_create` is one atomic INSERT that raises `IntegrityError`
(violating `unique_together ['member', 'session_id']`) when the batch
itself contains the same member twice, persisting nothing.  On success the
4 rows are appended and the in-memory objects (with their exact fractional
placements) are returned.  `now` stands for the `created_at` auto
timestamp (year, month). -/
def submit_session_scores (db : DB) (t : Team) (sessionId : ℕ)
    (scoreData : List Entry) (now : ℕ × ℕ) :
    DB × Except Err (List PendingScore) :=
  if scoreData.length ≠ 4 then (db, .error .validation)
  else if scoreData.any (fun e => ! memberInTeam db t.id e.memberId) then
    (db, .error .validation)
  else if scoreData.any (fun e => memberHasRow db t.id sessionId e.memberId) then
    (db, .error .validation)
  else
    let pendings := mkPendingScores t sessionId scoreData
    if (scoreData.map (·.memberId)).Nodup then
      (⟨db.members, db.scores ++ pendings.map (fun p => p.toRow now)⟩, .ok pendings)
    else (db, .error .integrity)

/-- `update_session_scores(session_id, team, score_data, session_date)`
(calculator.py lines 287-322): `old_scores.delete()` runs first and
unconditionally, then `submit_session_scores` is called on the already
mutated state; there is no enclosing transaction, so when submit raises,
the deletion stays persisted. -/
def update_session_scores (db : DB) (t : Team) (sessionId : ℕ)
    (scoreData : List Entry) (now : ℕ × ℕ) :
    DB × Except Err (List PendingScore) :=
  let remaining := db.scores.filter
    (fun r => !(r.teamId = t.id && r.sessionId = sessionId))
  submit_session_scores ⟨db.members, remaining⟩ t sessionId scoreData now

/-- Key comparison of `.order_by('placement')` on a nullable integer
column: SQL NULLs sort first in ascending order. -/
def optLe (a b : Option ℤ) : Bool :=
  match a, b with
  | none, _ => true
  | some _, none => false
  | some x, some y => x ≤ y

/-- `.order_by('placement')` as a stable ascending sort on the stored
placement column. -/
def sortByPlacement (l : List RawScore) : List RawScore :=
  List.insertionSort (fun a b => optLe a.placement b.placement = true) l

/-- One element of the `players` list built by `get_session_details`. -/
structure PlayerDetail where
  memberId : ℕ
  placement : ℚ
  rawScore : ℤ
  baseScore : ℚ
  uma : ℚ
  chombo : ℕ
  calculatedScore : ℚ
deriving Repr, DecidableEq

/-- The fallback placement of `get_session_details` (calculator.py lines
354-369), used when the stored placement is falsy.  In the untied branch
the source locates the row by object identity (`s.id == raw_score.id`),
modelled as value equality (rows of one session differ in `memberId` in
any state the application can persist). -/
def fallbackPlacement (rows : List RawScore) (r : RawScore) : ℚ :=
  let sortedRows := sortDescBy (fun s : RawScore => s.score) rows
  let sortedScores := sortedRows.map (fun s => s.score)
  let k := tieCount sortedScores r.score
  if 1 < k then tieAvg (firstTiedIdx sortedScores r.score) k
  else ((sortedRows.findIdx (fun s => s = r) : ℚ) + 1)

/-- `get_session_details(session_id, team)` (calculator.py lines 325-410).
Returns `none` unless the session has exactly 4 rows for the team.  The
reported placement is the stored (integer) column when truthy; the uma is
always recomputed with tie averaging; the chombo deduction is a flat 30
(`calculated -= 30`), not scaled by the chombo count. -/
def get_session_details (db : DB) (t : Team) (sessionId : ℕ) :
    Option (List PlayerDetail) :=
  let rows := sortByPlacement (sessionScores db t.id sessionId)
  if rows.length ≠ 4 then none
  else some (rows.map (fun r =>
    let placement : ℚ :=
      match r.placement with
      | some p => if p ≠ 0 then (p : ℚ) else fallbackPlacement rows r
      | none => fallbackPlacement rows r
    let sortedScores := (sortDescBy (fun s : RawScore => s.score) rows).map
      (fun s => s.score)
    let uma := resolvedUma t sortedScores r.score placement
    let base : ℚ := ((r.score - t.targetPoint : ℤ) : ℚ) / 1000
    let beforeChombo := base + uma
    let calculated :=
      if r.chombo ≠ 0 && t.chomboEnabled then beforeChombo - 30 else beforeChombo
    ⟨r.memberId, placement, r.score, base, uma, r.chombo, calculated⟩))

/-- The fields of a CalculatedScore row recomputed by
`CalculatedScore.compute_stats` (models.py lines 77-144). -/
structure CalculatedScore where
  total : ℚ
  gamesPlayed : ℕ
  averagePerGame : ℚ
  averagePlacement : ℚ
  chomboCount : ℕ
deriving Repr, DecidableEq

/-- `self.member.raw_scores.values_list('session_id', flat=True).distinct()`;
a member has at most one row per session in any state the application can
persist, so which duplicate `distinct` keeps is immaterial. -/
def memberSessionIds (db : DB) (mid : ℕ) : List ℕ :=
  ((db.scores.filter (fun r => r.memberId = mid)).map (fun r => r.sessionId)).dedup

/-- Accumulator of the session loop of `compute_stats`. -/
structure RollupAcc where
  total : ℚ
  placements : List ℤ
  games : ℕ
  chombo : ℕ
deriving Repr, DecidableEq

/-- `CalculatedScore.compute_stats` (models.py lines 77-144) for the member
`mid` of team `t`.  Note the placement here is the plain 1-based position
of the member's row in the descending sort — this path has no tie
averaging — and the uma is `uma_map.get(placement, 0)`.  The chombo
deduction is `30 * chombo`. -/
def compute_stats (db : DB) (t : Team) (mid : ℕ) : CalculatedScore :=
  let step := fun (acc : RollupAcc) (sid : ℕ) =>
    let sessionAll := sessionScores db t.id sid
    if sessionAll.length ≠ 4 then acc
    else
      match sessionAll.find? (fun r => r.memberId = mid) with
      | none => acc
      | some memberRow =>
        let sortedRows := sortDescBy (fun s : RawScore => s.score) sessionAll
        let placement : ℤ := (sortedRows.findIdx (fun s => s.memberId = mid) : ℤ) + 1
        let uma := t.umaMap placement
        let base : ℚ := ((memberRow.score - t.targetPoint : ℤ) : ℚ) / 1000
        let beforeChombo := base + uma
        let hits := memberRow.chombo > 0 && t.chomboEnabled
        let calculated := if hits then beforeChombo - 30 * memberRow.chombo else beforeChombo
        ⟨acc.total + calculated, acc.placements ++ [placement], acc.games + 1,
          acc.chombo + if hits then memberRow.chombo else 0⟩
  let acc := (memberSessionIds db mid).foldl step ⟨0, [], 0, 0⟩
  ⟨acc.total, acc.games,
    if acc.games > 0 then acc.total / acc.games else 0,
    if acc.placements.length > 0 then
      ((acc.placements.map (fun p : ℤ => (p : ℚ))).sum) / acc.placements.length
    else 0,
    acc.chombo⟩

/-- Python's `round()`: round half to even (used only for the per-placement
finish buckets of the monthly standings). -/
def pyRound (q : ℚ) : ℤ :=
  if q - ⌊q⌋ < 1/2 then ⌊q⌋
  else if 1/2 < q - ⌊q⌋ then ⌊q⌋ + 1
  else if ⌊q⌋ % 2 = 0 then ⌊q⌋ else ⌊q⌋ + 1

/-- The monthly window queryset of `get_team_standings_by_month`
(calculator.py lines 85-89). -/
def monthlyRows (db : DB) (t : Team) (month year : ℕ) : List RawScore :=
  db.scores.filter (fun r =>
    r.teamId = t.id && r.createdYear = year && r.createdMonth = month)

/-- The keys of the `sessions` dict (calculator.py lines 102-106).  Their
iteration order does not influence any output value: every statistic is a
per-member sum, count or average over the member's rows. -/
def monthlySessionIds (rows : List RawScore) : List ℕ :=
  ((rows.map (fun r => r.sessionId)).dedup)

/-- All (complete-session, row) pairs of member `mid` inside the monthly
window: the dict entry `member_scores[mid]` accumulates exactly one
contribution per such pair (sessions with `len != 4` are skipped). -/
def memberMonthlyEntries (rows : List RawScore) (mid : ℕ) :
    List (List RawScore × RawScore) :=
  ((monthlySessionIds rows).map (fun sid =>
    let sessionRows := rows.filter (fun r => r.sessionId = sid)
    if sessionRows.length = 4 then
      (sessionRows.filter (fun r => r.memberId = mid)).map (fun r => (sessionRows, r))
    else [])).flatten

/-- The tie-aware placement of the monthly path (calculator.py lines
128-143).  In the untied branch the source takes the first enumerate index
whose `member_id` matches the row's. -/
def monthlyPlacement (sessionRows : List RawScore) (r : RawScore) : ℚ :=
  let sortedRows := sortDescBy (fun s : RawScore => s.score) sessionRows
  let sortedScores := sortedRows.map (fun s => s.score)
  let k := tieCount sortedScores r.score
  if 1 < k then tieAvg (firstTiedIdx sortedScores r.score) k
  else ((sortedRows.findIdx (fun s => s.memberId = r.memberId) : ℚ) + 1)

/-- The calculated score of one row in the monthly path (calculator.py
lines 145-166): base + (tie-averaged) uma, minus `30 * chombo` when the
team has chombo enabled. -/
def monthlyCalculated (t : Team) (sessionRows : List RawScore) (r : RawScore) : ℚ :=
  let sortedScores := (sortDescBy (fun s : RawScore => s.score) sessionRows).map
    (fun s => s.score)
  let placement := monthlyPlacement sessionRows r
  let uma := resolvedUma t sortedScores r.score placement
  let base : ℚ := ((r.score - t.targetPoint : ℤ) : ℚ) / 1000
  let beforeChombo := base + uma
  if r.chombo > 0 && t.chomboEnabled then beforeChombo - 30 * r.chombo else beforeChombo

/-- The full statistics record attached to a member that appears in
`member_scores` (calculator.py lines 186-196). -/
structure MonthlyStats where
  total : ℚ
  games : ℕ
  average : ℚ
  avgPlacement : ℚ
  chomboCount : ℕ
  firstPlace : ℕ
  secondPlace : ℕ
  thirdPlace : ℕ
  fourthPlace : ℕ
deriving Repr, DecidableEq

/-- Aggregation of one member's monthly entries, mirroring the
accumulation into `member_scores[member_id]` plus the final
average computations. -/
def monthlyAgg (t : Team) (entries : List (List RawScore × RawScore)) :
    MonthlyStats :=
  let placements := entries.map (fun e => monthlyPlacement e.1 e.2)
  let total := (entries.map (fun e => monthlyCalculated t e.1 e.2)).sum
  let games := entries.length
  let chombo := (entries.map (fun e =>
    if e.2.chombo > 0 && t.chomboEnabled then e.2.chombo else 0)).sum
  let bucket := fun (v : ℤ) => (placements.filter (fun p => pyRound p = v)).length
  ⟨total, games,
    if games > 0 then total / games else 0,
    if placements.length > 0 then placements.sum / placements.length else 0,
    chombo, bucket 1, bucket 2, bucket 3, bucket 4⟩

/-- The attributes attached to a member by `get_team_standings_by_month`:
the early-return branch for an empty monthly window (calculator.py lines
92-99) sets only `monthly_total`, `monthly_games` and `monthly_average`
(the `basic` constructor); the main branch (lines 183-206) sets the full
record. -/
inductive MonthlyView where
  | basic (total : ℚ) (games : ℕ) (average : ℚ) : MonthlyView
  | full (stats : MonthlyStats) : MonthlyView
deriving Repr, DecidableEq

/-- The `monthly_total` key the final `sorted(..., reverse=True)` uses. -/
def MonthlyView.total : MonthlyView → ℚ
  | basic t _ _ => t
  | full s => s.total

/-- `team.members.all()` (ordered per Member.Meta by name; the model list
order stands for it). -/
def teamMembers (db : DB) (t : Team) : List Member :=
  db.members.filter (fun m => m.teamId = t.id)

/-- Zero statistics attached to a member absent from `member_scores`
(calculator.py lines 197-206). -/
def zeroMonthly : MonthlyStats := ⟨0, 0, 0, 0, 0, 0, 0, 0, 0⟩

/-- `get_team_standings_by_month(team, month, year)` (calculator.py lines
66-209), returning `(member id, attached statistics)` pairs sorted by
monthly total, descending and stable. -/
def get_team_standings_by_month (db : DB) (t : Team) (month year : ℕ) :
    List (ℕ × MonthlyView) :=
  let rows := monthlyRows db t month year
  let members := teamMembers db t
  if rows.isEmpty then
    sortDescBy (fun p : ℕ × MonthlyView => p.2.total)
      (members.map (fun m => (m.id, MonthlyView.basic 0 0 0)))
  else
    sortDescBy (fun p : ℕ × MonthlyView => p.2.total)
      (members.map (fun m =>
        let entries := memberMonthlyEntries rows m.id
        if entries.isEmpty then (m.id, MonthlyView.full zeroMonthly)
        else (m.id, MonthlyView.full (monthlyAgg t entries))))

/-- Modelled from the spec: the Placement Resolver of spec section 4.2.
For the tie cluster of score value `v` occupying contiguous 1-based sorted
ranks `[r, r + k - 1]`, every member receives the average of `r .. r + k - 1`
(a cluster of size one degenerates to the plain rank).  Stated from the
spec's words, to be compared with the source's various placement
computations. -/
def spec42Placement (sortedScores : List ℤ) (v : ℤ) : ℚ :=
  tieAvg (firstTiedIdx sortedScores v) (tieCount sortedScores v)

/-- Modelled from the spec: the uma of spec section 4.2, the average of
`uma_map[r .. r + k - 1]` over the tie cluster's ranks. -/
def spec42Uma (t : Team) (sortedScores : List ℤ) (v : ℤ) : ℚ :=
  let k := tieCount sortedScores v
  let r := firstTiedIdx sortedScores v
  (((List.range k).map (fun j : ℕ => ((t.umaMap ((r : ℤ) + 1 + (j : ℤ)) : ℤ) : ℚ))).sum) / k

theorem range_map_affine_sum (r k : ℕ) :
    ((List.range k).map (fun j : ℕ => ((r : ℚ) + 1 + (j : ℚ)))).sum
      = k * r + k * (k + 1) / 2 := by
  induction k with
  | zero => simp
  | succ n ih =>
    rw [List.range_succ, List.map_append, List.sum_append, ih]
    push_cast
    simp only [List.map_cons, List.map_nil, List.sum_cons, List.sum_nil]
    ring

theorem tieAvg_eq (r k : ℕ) (hk : k ≠ 0) :
    tieAvg r k = (r : ℚ) + (k + 1) / 2 := by
  have hkq : (k : ℚ) ≠ 0 := Nat.cast_ne_zero.mpr hk
  rw [tieAvg, range_map_affine_sum]
  field_simp
  ring

theorem tieCount_pos (s : List ℤ) (v : ℤ) (h : v ∈ s) : 0 < tieCount s v := by
  have : v ∈ s.filter (fun x => x = v) := List.mem_filter.mpr ⟨h, by simp⟩
  exact List.length_pos.mpr (List.ne_nil_of_mem this)

/-- Both branches of the submit-path placement computation agree with the
single closed form `first index + (cluster size + 1) / 2`. -/
theorem resolvedPlacement_closed (s : List ℤ) (v : ℤ) (h : v ∈ s) :
    resolvedPlacement s v
      = (firstTiedIdx s v : ℚ) + ((tieCount s v : ℚ) + 1) / 2 := by
  rw [resolvedPlacement]
  by_cases hk : 1 < tieCount s v
  · simp only [hk, if_true]
    exact tieAvg_eq _ _ (tieCount_pos s v h).ne'
  · have h1 : tieCount s v = 1 :=
      le_antisymm (not_lt.mp hk) (tieCount_pos s v h)
    simp [hk, h1]

theorem sorted4_placements_sum (a b c d : ℤ)
    (hab : b ≤ a) (hbc : c ≤ b) (hcd : d ≤ c) :
    (([a, b, c, d]).map (resolvedPlacement [a, b, c, d])).sum = 10 := by
  have ea : a ∈ ([a, b, c, d] : List ℤ) := by simp
  have eb : b ∈ ([a, b, c, d] : List ℤ) := by simp
  have ec : c ∈ ([a, b, c, d] : List ℤ) := by simp
  have ed : d ∈ ([a, b, c, d] : List ℤ) := by simp
  simp only [List.map_cons, List.map_nil, List.sum_cons, List.sum_nil,
    resolvedPlacement_closed _ _ ea, resolvedPlacement_closed _ _ eb,
    resolvedPlacement_closed _ _ ec, resolvedPlacement_closed _ _ ed]
  rcases eq_or_ne a b with h1 | h1 <;> rcases eq_or_ne b c with h2 | h2 <;>
    rcases eq_or_ne c d with h3 | h3
  · subst h1; subst h2; subst h3
    simp [firstTiedIdx, tieCount, List.findIdx_cons]
    norm_num
  · subst h1; subst h2
    have n1 : ¬a = d := by omega
    have n2 : ¬d = a := by omega
    simp [firstTiedIdx, tieCount, List.findIdx_cons, n1, n2]
    norm_num
  · subst h1; subst h3
    have n1 : ¬a = c := by omega
    have n2 : ¬c = a := by omega
    simp [firstTiedIdx, tieCount, List.findIdx_cons, n1, n2]
    norm_num
  · subst h1
    have n1 : ¬a = c := by omega
    have n2 : ¬c = a := by omega
    have n3 : ¬a = d := by omega
    have n4 : ¬d = a := by omega
    have n5 : ¬c = d := h3
    have n6 : ¬d = c := by omega
    simp [firstTiedIdx, tieCount, List.findIdx_cons, n1, n2, n3, n4, n5, n6]
    norm_num
  · subst h2; subst h3
    have n1 : ¬a = b := h1
    have n2 : ¬b = a := by omega
    simp [firstTiedIdx, tieCount, List.findIdx_cons, n1, n2]
    norm_num
  · subst h2
    have n1 : ¬a = b := h1
    have n2 : ¬b = a := by omega
    have n3 : ¬a = d := by omega
    have n4 : ¬d = a := by omega
    have n5 : ¬b = d := h3
    have n6 : ¬d = b := by omega
    simp [firstTiedIdx, tieCount, List.findIdx_cons, n1, n2, n3, n4, n5, n6]
    norm_num
  · subst h3
    have n1 : ¬a = b := h1
    have n2 : ¬b = a := by omega
    have n3 : ¬a = c := by omega
    have n4 : ¬c = a := by omega
    have n5 : ¬b = c := h2
    have n6 : ¬c = b := by omega
    simp [firstTiedIdx, tieCount, List.findIdx_cons, n1, n2, n3, n4, n5, n6]
    norm_num
  · have n1 : ¬a = b := h1
    have n2 : ¬b = a := by omega
    have n3 : ¬a = c := by omega
    have n4 : ¬c = a := by omega
    have n5 : ¬a = d := by omega
    have n6 : ¬d = a := by omega
    have n7 : ¬b = c := h2
    have n8 : ¬c = b := by omega
    have n9 : ¬b = d := by omega
    have n10 : ¬d = b := by omega
    have n11 : ¬c = d := h3
    have n12 : ¬d = c := by omega
    simp [firstTiedIdx, tieCount, List.findIdx_cons,
      n1, n2, n3, n4, n5, n6, n7, n8, n9, n10, n11, n12]
    norm_num

theorem sortDesc_sorted (l : List ℤ) :
    List.Sorted (fun a b : ℤ => b ≤ a) (sortDesc l) := by
  haveI ht : IsTotal ℤ (fun a b : ℤ => id b ≤ id a) := ⟨fun x y => le_total y x⟩
  haveI htr : IsTrans ℤ (fun a b : ℤ => id b ≤ id a) :=
    ⟨fun x y z hxy hyz => le_trans hyz hxy⟩
  exact List.sorted_insertionSort _ l

theorem placements_sum_of_len4 (l : List ℤ) (hl : l.length = 4) :
    ((l.map (resolvedPlacement (sortDesc l))).sum) = 10 := by
  have hperm : List.Perm (sortDesc l) l :=
    List.perm_insertionSort (fun a b : ℤ => id b ≤ id a) l
  have hlen : (sortDesc l).length = 4 := by rw [hperm.length_eq]; exact hl
  have hsorted := sortDesc_sorted l
  have hex : ∃ a b c d, sortDesc l = [a, b, c, d] := by
    generalize sortDesc l = s at hlen
    rcases s with _ | ⟨a, s⟩
    · simp only [List.length_nil] at hlen; omega
    rcases s with _ | ⟨b, s⟩
    · simp only [List.length_cons, List.length_nil] at hlen; omega
    rcases s with _ | ⟨c, s⟩
    · simp only [List.length_cons, List.length_nil] at hlen; omega
    rcases s with _ | ⟨d, s⟩
    · simp only [List.length_cons, List.length_nil] at hlen; omega
    rcases s with _ | ⟨e, s⟩
    · exact ⟨a, b, c, d, rfl⟩
    · simp only [List.length_cons] at hlen; omega
  obtain ⟨a, b, c, d, hs⟩ := hex
  calc (l.map (resolvedPlacement (sortDesc l))).sum
      = ((sortDesc l).map (resolvedPlacement (sortDesc l))).sum :=
        ((hperm.map _).sum_eq).symm
    _ = 10 := by
        rw [hs] at hsorted ⊢
        have h1 := List.sorted_cons.mp hsorted
        have h2 := List.sorted_cons.mp h1.2
        have h3 := List.sorted_cons.mp h2.2
        exact sorted4_placements_sum a b c d
          (h1.1 b (by simp)) (h2.1 c (by simp)) (h3.1 d (by simp))

/-- Anatomy of a successful submit: the input had 4 entries, the returned
objects are exactly `mkPendingScores`, and the new state is the old one
with the four prepared rows appended. -/
theorem submit_ok_dest (db : DB) (t : Team) (sid : ℕ) (sd : List Entry)
    (now : ℕ × ℕ) (pendings : List PendingScore)
    (h : (submit_session_scores db t sid sd now).2 = .ok pendings) :
    sd.length = 4 ∧ (sd.map (fun e => e.memberId)).Nodup ∧
      pendings = mkPendingScores t sid sd ∧
      (submit_session_scores db t sid sd now).1
        = ⟨db.members, db.scores ++ pendings.map (fun p => p.toRow now)⟩ := by
  unfold submit_session_scores at h ⊢
  split_ifs at h ⊢ with h1 h2 h3 h4
  dsimp only at h
  injection h with h
  subst h
  exact ⟨not_not.mp h1, h4, rfl, rfl⟩

/-- Claim C6: for every 4-entry input accepted by `submit_session_scores`
(hence for every complete session in any reachable state), the four
placements assigned to the batch — plain ranks or averaged tie
placements — sum to exactly 10, regardless of how the raw scores tie. -/
theorem claim_C6_placements_sum_ten (db : DB) (t : Team) (sid : ℕ)
    (sd : List Entry) (now : ℕ × ℕ) (pendings : List PendingScore)
    (h : (submit_session_scores db t sid sd now).2 = .ok pendings) :
    ((pendings.map (fun p => p.placement)).sum) = 10 := by
  obtain ⟨h4, -, hp, -⟩ := submit_ok_dest db t sid sd now pendings h
  subst hp
  have hmap : (mkPendingScores t sid sd).map (fun p => p.placement)
      = (sd.map (fun e => e.score)).map
          (resolvedPlacement (sortDesc (sd.map (fun e => e.score)))) := by
    simp [mkPendingScores, List.map_map]
  rw [hmap]
  exact placements_sum_of_len4 _ (by simpa using h4)

/-- Concrete teams and states used by the witnesses and counterexamples
below: team 1 with the default configuration (target 30000, uma values
15, 5, minus 5, minus 15, chombo enabled). -/
def teamW : Team := ⟨1, 30000, 15, 5, -5, -15, true⟩

/-- Members 1 to 4, all in team 1, empty RawScore table. -/
def dbW : DB := ⟨[⟨1, 1⟩, ⟨2, 1⟩, ⟨3, 1⟩, ⟨4, 1⟩], []⟩

/-- A 4-entry batch with a tie for first place (members 1 and 2 both on
30000) and two chombos for member 4. -/
def sdW : List Entry := [⟨1, 30000, 0⟩, ⟨2, 30000, 0⟩, ⟨3, 20000, 0⟩, ⟨4, 10000, 2⟩]

theorem claim_C6_witness :
    (((mkPendingScores teamW 1 sdW).map (fun p => p.placement)).sum) = 10 :=
  claim_C6_placements_sum_ten dbW teamW 1 sdW (2024, 5)
    (mkPendingScores teamW 1 sdW) rfl

/-- Claim C10: `get_session_details` returns `None` exactly when the number
of RawScore rows of the session within the team differs from 4 — incomplete
and over-full sessions alike yield `None`, never a result or an error. -/
theorem claim_C10_details_none_iff (db : DB) (t : Team) (sid : ℕ) :
    (get_session_details db t sid = none
      ↔ (sessionScores db t.id sid).length ≠ 4) := by
  have hlen : (sortByPlacement (sessionScores db t.id sid)).length
      = (sessionScores db t.id sid).length := by
    unfold sortByPlacement
    exact (List.perm_insertionSort _ _).length_eq
  unfold get_session_details
  dsimp only
  split_ifs with h
  · exact iff_of_true rfl (hlen ▸ h)
  · refine iff_of_false (by simp) ?_
    rw [← hlen]
    simpa using h

theorem bool_not_and_absorb (a b : Bool) : ((!a) && !(a && b)) = !a := by
  cases a <;> cases b <;> rfl

theorem bool_and_not_self (a b : Bool) : ((a && b) && !(a && b)) = false := by
  cases a <;> cases b <;> rfl

/-- Claim C8: after a successful `update_session_scores`, the session has
exactly 4 rows within the team, with pairwise distinct members, and every
row belonging to a different team — in particular any row of another team
sharing the same session id — is untouched. -/
theorem claim_C8_update_exactly_four (db : DB) (t : Team) (sid : ℕ)
    (sd : List Entry) (now : ℕ × ℕ) (pendings : List PendingScore)
    (h : (update_session_scores db t sid sd now).2 = .ok pendings) :
    (sessionScores (update_session_scores db t sid sd now).1 t.id sid).length = 4
    ∧ (((sessionScores (update_session_scores db t sid sd now).1 t.id sid).map
        (fun r => r.memberId)).Nodup)
    ∧ (update_session_scores db t sid sd now).1.scores.filter
        (fun r => !(r.teamId = t.id : Bool))
      = db.scores.filter (fun r => !(r.teamId = t.id : Bool)) := by
  unfold update_session_scores at h ⊢
  obtain ⟨h4, hnodup, hp, hstate⟩ := submit_ok_dest _ t sid sd now pendings h
  rw [hstate]
  subst hp
  have hrows : (mkPendingScores t sid sd).map (fun p => p.toRow now)
      = sd.map (fun e => (⟨e.memberId, t.id, e.score, e.chombo, sid,
          some (pyInt (resolvedPlacement (sortDesc (sd.map (fun x => x.score)))
            e.score)), now.1, now.2⟩ : RawScore)) := by
    simp [mkPendingScores, PendingScore.toRow, List.map_map]
  constructor
  · -- length 4: old rows of the session are gone, the 4 new rows remain
    unfold sessionScores
    dsimp only
    rw [List.filter_append, List.filter_filter]
    have hleft : (db.scores.filter fun a =>
        (a.teamId = t.id && a.sessionId = sid) &&
          !(a.teamId = t.id && a.sessionId = sid)) = [] := by
      have : ∀ a : RawScore, ((a.teamId = t.id && a.sessionId = sid) &&
          !(a.teamId = t.id && a.sessionId = sid)) = false :=
        fun a => bool_and_not_self _ _
      simp [this]
    rw [hleft, hrows]
    have hright : ((sd.map (fun e => (⟨e.memberId, t.id, e.score, e.chombo, sid,
        some (pyInt (resolvedPlacement (sortDesc (sd.map (fun x => x.score)))
          e.score)), now.1, now.2⟩ : RawScore))).filter
        (fun r => r.teamId = t.id && r.sessionId = sid))
        = sd.map (fun e => (⟨e.memberId, t.id, e.score, e.chombo, sid,
            some (pyInt (resolvedPlacement (sortDesc (sd.map (fun x => x.score)))
              e.score)), now.1, now.2⟩ : RawScore)) := by
      apply List.filter_eq_self.mpr
      intro r hr
      simp only [List.mem_map] at hr
      obtain ⟨e, -, rfl⟩ := hr
      simp
    rw [hright, List.nil_append, List.length_map]
    exact h4
  constructor
  · -- the 4 members are pairwise distinct
    unfold sessionScores
    dsimp only
    rw [List.filter_append, List.filter_filter]
    have hleft : (db.scores.filter fun a =>
        (a.teamId = t.id && a.sessionId = sid) &&
          !(a.teamId = t.id && a.sessionId = sid)) = [] := by
      have : ∀ a : RawScore, ((a.teamId = t.id && a.sessionId = sid) &&
          !(a.teamId = t.id && a.sessionId = sid)) = false :=
        fun a => bool_and_not_self _ _
      simp [this]
    rw [hleft, hrows]
    have hright : ((sd.map (fun e => (⟨e.memberId, t.id, e.score, e.chombo, sid,
        some (pyInt (resolvedPlacement (sortDesc (sd.map (fun x => x.score)))
          e.score)), now.1, now.2⟩ : RawScore))).filter
        (fun r => r.teamId = t.id && r.sessionId = sid))
        = sd.map (fun e => (⟨e.memberId, t.id, e.score, e.chombo, sid,
            some (pyInt (resolvedPlacement (sortDesc (sd.map (fun x => x.score)))
              e.score)), now.1, now.2⟩ : RawScore)) := by
      apply List.filter_eq_self.mpr
      intro r hr
      simp only [List.mem_map] at hr
      obtain ⟨e, -, rfl⟩ := hr
      simp
    rw [hright, List.nil_append, List.map_map]
    simpa [Function.comp] using hnodup
  · -- frame: rows of other teams are untouched
    dsimp only
    rw [List.filter_append, List.filter_filter, hrows]
    have hright : ((sd.map (fun e => (⟨e.memberId, t.id, e.score, e.chombo, sid,
        some (pyInt (resolvedPlacement (sortDesc (sd.map (fun x => x.score)))
          e.score)), now.1, now.2⟩ : RawScore))).filter
        (fun r => !(r.teamId = t.id : Bool))) = [] := by
      apply List.filter_eq_nil_iff.mpr
      intro r hr
      simp only [List.mem_map] at hr
      obtain ⟨e, -, rfl⟩ := hr
      simp
    rw [hright, List.append_nil]
    apply List.filter_congr
    intro r _
    exact bool_not_and_absorb _ _

theorem pyInt_eq_floor (q : ℚ) (hq : 0 ≤ q) : pyInt q = ⌊q⌋ := by
  rw [pyInt, Int.tdiv_eq_ediv (Rat.num_nonneg.mpr hq) (Int.ofNat_nonneg q.den),
    Rat.floor_def]

theorem pyInt_intCast (n : ℤ) : pyInt ((n : ℚ)) = n := by
  simp [pyInt, Rat.num_intCast, Rat.den_intCast]

/-- The four stored rows of session 1 of team 1: distinct scores 40000,
30000, 20000, 10000, stored placements 1 to 4, member 4 carrying two
chombos. -/
def r1 : RawScore := ⟨1, 1, 40000, 0, 1, some 1, 2024, 5⟩

def r2 : RawScore := ⟨2, 1, 30000, 0, 1, some 2, 2024, 5⟩

def r3 : RawScore := ⟨3, 1, 20000, 0, 1, some 3, 2024, 5⟩

def r4 : RawScore := ⟨4, 1, 10000, 2, 1, some 4, 2024, 5⟩

/-- Four members of team 1 already have distinct-score rows in session 1;
session 9 has no rows.  Member 4 carries two chombos.  Team 1 additionally
has members 5 to 8 with no rows at all. -/
def dbS1 : DB :=
  ⟨[⟨1, 1⟩, ⟨2, 1⟩, ⟨3, 1⟩, ⟨4, 1⟩, ⟨5, 1⟩, ⟨6, 1⟩, ⟨7, 1⟩, ⟨8, 1⟩],
   [r1, r2, r3, r4]⟩

/-- A fresh 4-entry batch naming members 5 to 8. -/
def sdFresh : List Entry :=
  [⟨5, 40000, 0⟩, ⟨6, 30000, 0⟩, ⟨7, 20000, 0⟩, ⟨8, 10000, 0⟩]

/-- A malformed 3-entry batch. -/
def sdShort : List Entry := [⟨1, 30000, 0⟩, ⟨2, 20000, 0⟩, ⟨3, 10000, 0⟩]

/-- A 4-entry batch naming member 1 twice. -/
def sdDup : List Entry :=
  [⟨1, 30000, 0⟩, ⟨1, 25000, 0⟩, ⟨2, 20000, 0⟩, ⟨3, 10000, 0⟩]

/-- Claim C9 (evidence): submitting a batch that contains the same member
twice into an empty session reaches `bulk_create` — both in-memory rows
pass `full_clean`, because `RawScore.clean` only consults the database —
and dies with a database `IntegrityError`, not the `ValidationError` the
spec demands; no rows are persisted. -/
theorem claim_C9_duplicate_member_integrity :
    (submit_session_scores dbW teamW 1 sdDup (2024, 5))
        = (dbW, Except.error Err.integrity)
      ∧ Err.integrity ≠ Err.validation := by
  exact ⟨rfl, by decide⟩

/-- Claim C4 (counterexample): the session state machine is not enforced by
the core operations.  Session 1 of team 1 is complete (4 rows), yet
`submit_session_scores` for four other members of the team succeeds; and
session 9 has no rows, yet `update_session_scores` succeeds as well. -/
theorem claim_C4_counterexample :
    ((sessionScores dbS1 teamW.id 1).length = 4
      ∧ (submit_session_scores dbS1 teamW 1 sdFresh (2024, 6)).2
          = Except.ok (mkPendingScores teamW 1 sdFresh))
    ∧ ((sessionScores dbS1 teamW.id 9).length = 0
      ∧ (update_session_scores dbS1 teamW 9 sdFresh (2024, 6)).2
          = Except.ok (mkPendingScores teamW 9 sdFresh)) := by
  exact ⟨⟨by decide, rfl⟩, ⟨by decide, rfl⟩⟩

/-- Claim C4 (amended): the core operations enforce only per-member
constraints, not the per-session state machine.  A 4-entry batch of
distinct team members, none of whom already has a row in the session,
always succeeds — no matter how many rows the session already holds — and
`update_session_scores` on a session with no rows behaves exactly like
`submit_session_scores`.  The 409-conflict and 404-not-found guards live in
the REST layer (api_views.py), outside these functions. -/
theorem claim_C4_amended :
    (∀ (db : DB) (t : Team) (sid : ℕ) (sd : List Entry) (now : ℕ × ℕ),
      sd.length = 4 →
      (∀ e ∈ sd, memberInTeam db t.id e.memberId = true) →
      (∀ e ∈ sd, memberHasRow db t.id sid e.memberId = false) →
      (sd.map (fun e => e.memberId)).Nodup →
      (submit_session_scores db t sid sd now).2
        = Except.ok (mkPendingScores t sid sd))
    ∧ (∀ (db : DB) (t : Team) (sid : ℕ) (sd : List Entry) (now : ℕ × ℕ),
      sessionScores db t.id sid = [] →
      update_session_scores db t sid sd now
        = submit_session_scores db t sid sd now) := by
  constructor
  · intro db t sid sd now h4 hmem hrow hnodup
    unfold submit_session_scores
    have c1 : ¬(sd.length ≠ 4) := by simp [h4]
    have c2 : (sd.any fun e => !memberInTeam db t.id e.memberId) = false := by
      simp only [List.any_eq_false]
      intro e he
      simp [hmem e he]
    have c3 : (sd.any fun e => memberHasRow db t.id sid e.memberId) = false := by
      simp only [List.any_eq_false]
      intro e he
      simp [hrow e he]
    rw [if_neg c1, if_neg (by simp [c2]), if_neg (by simp [c3]), if_pos hnodup]
  · intro db t sid sd now h
    unfold update_session_scores
    have hkeep : db.scores.filter
        (fun r => !(r.teamId = t.id && r.sessionId = sid)) = db.scores := by
      apply List.filter_eq_self.mpr
      intro r hr
      have hne := List.filter_eq_nil_iff.mp h r hr
      simp only [Bool.not_eq_true] at hne
      simp only [hne, Bool.not_false]
    rw [hkeep]

theorem claim_C4_witness :
    ((submit_session_scores dbW teamW 1 sdW (2024, 5)).2
        = Except.ok (mkPendingScores teamW 1 sdW))
    ∧ (update_session_scores dbW teamW 1 sdW (2024, 5)
        = submit_session_scores dbW teamW 1 sdW (2024, 5)) :=
  ⟨claim_C4_amended.1 dbW teamW 1 sdW (2024, 5) (by decide) (by decide)
      (by decide) (by decide),
    claim_C4_amended.2 dbW teamW 1 sdW (2024, 5) rfl⟩

/-- Claim C3 (evidence): a failing `update_session_scores` does not leave
the stored rows intact.  Session 1 of team 1 is complete with 4 rows;
updating it with a malformed 3-entry batch raises the `ValidationError`
only after `old_scores.delete()` has run, so afterwards the session has 0
rows — the old state is destroyed, violating the required transactional
rollback. -/
theorem claim_C3_failed_update_empties_session :
    (sessionScores dbS1 teamW.id 1).length = 4
    ∧ (update_session_scores dbS1 teamW 1 sdShort (2024, 6)).2
        = Except.error Err.validation
    ∧ sessionScores (update_session_scores dbS1 teamW 1 sdShort (2024, 6)).1
        teamW.id 1 = [] := by
  exact ⟨by decide, rfl, by decide⟩

/-- Claim C2 (evidence): in `get_session_details` the chombo deduction is a
flat 30.  Member 4 carries chombo count 2: base is minus 20, uma is minus
15, and the reported calculated score is minus 65 — a deduction of 30, not
the per-unit 30 times 2 = 60 the spec fixes as canonical (which would give
minus 95). -/
theorem claim_C2_details_flat_chombo :
    ((get_session_details dbS1 teamW 1).map
        (fun ps => ps.map (fun p => p.calculatedScore)))
      = some [25, 5, -15, -65]
    ∧ ((-65 : ℚ) - (-20 + -15)) = -30
    ∧ ((-65 : ℚ) - (-20 + -15)) ≠ -(30 * 2) := by
  refine ⟨?_, by norm_num, by norm_num⟩
  have hsort : sortByPlacement (sessionScores dbS1 teamW.id 1)
      = [r1, r2, r3, r4] := by decide
  have hsrows : sortDescBy (fun s : RawScore => s.score) [r1, r2, r3, r4]
      = [r1, r2, r3, r4] := by decide
  unfold get_session_details
  rw [hsort]
  simp only [hsrows]
  norm_num [r1, r2, r3, r4, resolvedUma, tieCount, firstTiedIdx,
    Team.umaMap, teamW, pyInt, Int.tdiv_one]

/-- The placements the submit path assigns to the tied batch `sdW`:
members 1 and 2 share 3/2, members 3 and 4 get 3 and 4. -/
theorem mkPendingScores_sdW_placements :
    ((mkPendingScores teamW 1 sdW).map (fun p => p.placement))
      = [3/2, 3/2, 3, 4] := by
  have hsorted : sortDesc [30000, 30000, 20000, 10000]
      = [30000, 30000, 20000, 10000] := by decide
  have hp1 : resolvedPlacement [30000, 30000, 20000, 10000] 30000 = 3/2 := by
    rw [resolvedPlacement_closed _ _ (by decide)]
    have h1 : tieCount [30000, 30000, 20000, 10000] 30000 = 2 := by decide
    have h2 : firstTiedIdx [30000, 30000, 20000, 10000] 30000 = 0 := by decide
    rw [h1, h2]
    norm_num
  have hp3 : resolvedPlacement [30000, 30000, 20000, 10000] 20000 = 3 := by
    rw [resolvedPlacement_closed _ _ (by decide)]
    have h1 : tieCount [30000, 30000, 20000, 10000] 20000 = 1 := by decide
    have h2 : firstTiedIdx [30000, 30000, 20000, 10000] 20000 = 2 := by decide
    rw [h1, h2]
    norm_num
  have hp4 : resolvedPlacement [30000, 30000, 20000, 10000] 10000 = 4 := by
    rw [resolvedPlacement_closed _ _ (by decide)]
    have h1 : tieCount [30000, 30000, 20000, 10000] 10000 = 1 := by decide
    have h2 : firstTiedIdx [30000, 30000, 20000, 10000] 10000 = 3 := by decide
    rw [h1, h2]
    norm_num
  simp [mkPendingScores, sdW, hsorted, hp1, hp3, hp4]

/-- The four rows the tied submit persists: the fractional placements have
been truncated by the IntegerField to 1, 1, 3, 4. -/
theorem submit_sdW_stored_rows :
    ((submit_session_scores dbW teamW 1 sdW (2024, 5)).1).scores
      = [⟨1, 1, 30000, 0, 1, some 1, 2024, 5⟩,
         ⟨2, 1, 30000, 0, 1, some 1, 2024, 5⟩,
         ⟨3, 1, 20000, 0, 1, some 3, 2024, 5⟩,
         ⟨4, 1, 10000, 2, 1, some 4, 2024, 5⟩] := by
  have hstate : ((submit_session_scores dbW teamW 1 sdW (2024, 5)).1).scores
      = (mkPendingScores teamW 1 sdW).map (fun p => p.toRow (2024, 5)) := rfl
  rw [hstate]
  have hsorted : sortDesc [30000, 30000, 20000, 10000]
      = [30000, 30000, 20000, 10000] := by decide
  have hp1 : resolvedPlacement [30000, 30000, 20000, 10000] 30000 = 3/2 := by
    rw [resolvedPlacement_closed _ _ (by decide)]
    have h1 : tieCount [30000, 30000, 20000, 10000] 30000 = 2 := by decide
    have h2 : firstTiedIdx [30000, 30000, 20000, 10000] 30000 = 0 := by decide
    rw [h1, h2]
    norm_num
  have hp3 : resolvedPlacement [30000, 30000, 20000, 10000] 20000 = 3 := by
    rw [resolvedPlacement_closed _ _ (by decide)]
    have h1 : tieCount [30000, 30000, 20000, 10000] 20000 = 1 := by decide
    have h2 : firstTiedIdx [30000, 30000, 20000, 10000] 20000 = 2 := by decide
    rw [h1, h2]
    norm_num
  have hp4 : resolvedPlacement [30000, 30000, 20000, 10000] 10000 = 4 := by
    rw [resolvedPlacement_closed _ _ (by decide)]
    have h1 : tieCount [30000, 30000, 20000, 10000] 10000 = 1 := by decide
    have h2 : firstTiedIdx [30000, 30000, 20000, 10000] 10000 = 3 := by decide
    rw [h1, h2]
    norm_num
  have hpy1 : pyInt (3/2) = 1 := by
    rw [pyInt_eq_floor _ (by norm_num)]
    norm_num
  have hpy3 : pyInt 3 = 3 := by
    rw [pyInt_eq_floor _ (by norm_num)]
    norm_num
  have hpy4 : pyInt 4 = 4 := by
    rw [pyInt_eq_floor _ (by norm_num)]
    norm_num
  simp [mkPendingScores, sdW, PendingScore.toRow, teamW, hsorted, hp1, hp3, hp4,
    hpy1, hpy3, hpy4]

/-- Claim C5 (evidence): the round trip loses the fractional tie
placements.  Submitting the tied batch `sdW` (30000, 30000, 20000, 10000)
assigns placements 3/2, 3/2, 3, 4 per section 4.2, but the stored
IntegerField truncates them, and `get_session_details` afterwards reports
the same member, raw-score and chombo tuples with placements 1, 1, 3, 4 —
the tied players' averaged placement 3/2 does not survive storage. -/
theorem claim_C5_roundtrip_truncates_ties :
    (((get_session_details ((submit_session_scores dbW teamW 1 sdW (2024, 5)).1)
        teamW 1).map
        (fun ps => ps.map (fun p => (p.memberId, p.placement, p.rawScore, p.chombo)))))
      = some [(1, 1, 30000, 0), (2, 1, 30000, 0), (3, 3, 20000, 0), (4, 4, 10000, 2)]
    ∧ ((mkPendingScores teamW 1 sdW).map (fun p => p.placement)) = [3/2, 3/2, 3, 4]
    ∧ ((3 : ℚ)/2 ≠ 1) := by
  refine ⟨?_, mkPendingScores_sdW_placements, by norm_num⟩
  have hdb := submit_sdW_stored_rows
  generalize hq : (submit_session_scores dbW teamW 1 sdW (2024, 5)).1 = db1 at hdb
  have hsession : sessionScores db1 teamW.id 1
      = [⟨1, 1, 30000, 0, 1, some 1, 2024, 5⟩,
         ⟨2, 1, 30000, 0, 1, some 1, 2024, 5⟩,
         ⟨3, 1, 20000, 0, 1, some 3, 2024, 5⟩,
         ⟨4, 1, 10000, 2, 1, some 4, 2024, 5⟩] := by
    unfold sessionScores
    rw [hdb]
    decide
  have hsort : sortByPlacement (sessionScores db1 teamW.id 1)
      = [⟨1, 1, 30000, 0, 1, some 1, 2024, 5⟩,
         ⟨2, 1, 30000, 0, 1, some 1, 2024, 5⟩,
         ⟨3, 1, 20000, 0, 1, some 3, 2024, 5⟩,
         ⟨4, 1, 10000, 2, 1, some 4, 2024, 5⟩] := by
    rw [hsession]
    decide
  have hsrows : sortDescBy (fun s : RawScore => s.score)
      [(⟨1, 1, 30000, 0, 1, some 1, 2024, 5⟩ : RawScore),
       ⟨2, 1, 30000, 0, 1, some 1, 2024, 5⟩,
       ⟨3, 1, 20000, 0, 1, some 3, 2024, 5⟩,
       ⟨4, 1, 10000, 2, 1, some 4, 2024, 5⟩]
      = [⟨1, 1, 30000, 0, 1, some 1, 2024, 5⟩,
         ⟨2, 1, 30000, 0, 1, some 1, 2024, 5⟩,
         ⟨3, 1, 20000, 0, 1, some 3, 2024, 5⟩,
         ⟨4, 1, 10000, 2, 1, some 4, 2024, 5⟩] := by decide
  unfold get_session_details
  rw [hsort]
  simp only [hsrows]
  norm_num [resolvedUma, tieCount, firstTiedIdx, Team.umaMap, teamW,
    pyInt, Int.tdiv_one]

/-- The four rows of a session of team 1 in which members 1 and 2 tie on
30000 points, stored in May 2024. -/
def rt1 : RawScore := ⟨1, 1, 30000, 0, 1, some 1, 2024, 5⟩

def rt2 : RawScore := ⟨2, 1, 30000, 0, 1, some 1, 2024, 5⟩

def rt3 : RawScore := ⟨3, 1, 20000, 0, 1, some 3, 2024, 5⟩

def rt4 : RawScore := ⟨4, 1, 10000, 0, 1, some 4, 2024, 5⟩

/-- Members 1 to 4 of team 1 and one complete session with a tie for
first. -/
def dbTie : DB := ⟨[⟨1, 1⟩, ⟨2, 1⟩, ⟨3, 1⟩, ⟨4, 1⟩], [rt1, rt2, rt3, rt4]⟩

theorem compute_stats_dbTie_m1 :
    compute_stats dbTie teamW 1 = ⟨15, 1, 15, 1, 0⟩ := by
  have hms : memberSessionIds dbTie 1 = [1] := by decide
  have hsc : sessionScores dbTie teamW.id 1 = [rt1, rt2, rt3, rt4] := by decide
  have hsr : sortDescBy (fun s : RawScore => s.score) [rt1, rt2, rt3, rt4]
      = [rt1, rt2, rt3, rt4] := by decide
  have hfind : List.find? (fun r : RawScore => r.memberId = 1) [rt1, rt2, rt3, rt4]
      = some rt1 := by decide
  have hfi : List.findIdx (fun s : RawScore => s.memberId = 1) [rt1, rt2, rt3, rt4]
      = 0 := by decide
  unfold compute_stats
  rw [hms]
  simp only [List.foldl_cons, List.foldl_nil, hsc, hsr, hfind, hfi]
  norm_num [rt1, teamW, Team.umaMap]

theorem compute_stats_dbTie_m2 :
    compute_stats dbTie teamW 2 = ⟨5, 1, 5, 2, 0⟩ := by
  have hms : memberSessionIds dbTie 2 = [1] := by decide
  have hsc : sessionScores dbTie teamW.id 1 = [rt1, rt2, rt3, rt4] := by decide
  have hsr : sortDescBy (fun s : RawScore => s.score) [rt1, rt2, rt3, rt4]
      = [rt1, rt2, rt3, rt4] := by decide
  have hfind : List.find? (fun r : RawScore => r.memberId = 2) [rt1, rt2, rt3, rt4]
      = some rt2 := by decide
  have hfi : List.findIdx (fun s : RawScore => s.memberId = 2) [rt1, rt2, rt3, rt4]
      = 1 := by decide
  unfold compute_stats
  rw [hms]
  simp only [List.foldl_cons, List.foldl_nil, hsc, hsr, hfind, hfi]
  norm_num [rt2, teamW, Team.umaMap]

/-- Claim C1 (evidence): the Member Rollup has no tie handling.  In the
session of `dbTie`, members 1 and 2 both scored 30000; section 4.2
prescribes a shared placement of 3/2 and a shared uma of
(15 + 5) / 2 = 10, i.e. a calculated score of 10 for both.  But
`compute_stats` gives the two tied members the plain sorted positions 1
and 2 with umas 15 and 5: member 1 totals 15 and member 2 totals 5,
depending only on queryset order. -/
theorem claim_C1_rollup_ignores_ties :
    (compute_stats dbTie teamW 1).total = 15
    ∧ (compute_stats dbTie teamW 2).total = 5
    ∧ (compute_stats dbTie teamW 1).averagePlacement = 1
    ∧ (compute_stats dbTie teamW 2).averagePlacement = 2
    ∧ spec42Placement [30000, 30000, 20000, 10000] 30000 = 3/2
    ∧ spec42Uma teamW [30000, 30000, 20000, 10000] 30000 = 10
    ∧ ((10 : ℚ) ≠ 15 ∧ (10 : ℚ) ≠ 5 ∧ ((3 : ℚ)/2 ≠ 1 ∧ (3 : ℚ)/2 ≠ 2)) := by
  refine ⟨?_, ?_, ?_, ?_, ?_, ?_, by norm_num⟩
  · rw [compute_stats_dbTie_m1]
  · rw [compute_stats_dbTie_m2]
  · rw [compute_stats_dbTie_m1]
  · rw [compute_stats_dbTie_m2]
  · rw [spec42Placement]
    have h1 : tieCount [30000, 30000, 20000, 10000] 30000 = 2 := by decide
    have h2 : firstTiedIdx [30000, 30000, 20000, 10000] 30000 = 0 := by decide
    rw [h1, h2, tieAvg_eq _ _ (by norm_num)]
    norm_num
  · rw [spec42Uma]
    have h1 : tieCount [30000, 30000, 20000, 10000] 30000 = 2 := by decide
    have h2 : firstTiedIdx [30000, 30000, 20000, 10000] 30000 = 0 := by decide
    simp only [h1, h2]
    norm_num [List.range_succ, Team.umaMap, teamW]

/-- Claim C7 (amended): `get_team_standings_by_month` orders the members by
monthly total, descending; a member with no row in any complete session of
the window is annotated with the all-zero full statistics record when the
window is non-empty, and with only the three basic zero attributes when the
window has no rows at all.  Because the order is by total alone, zero-stat
members are NOT guaranteed to sort last: they precede every member whose
monthly total is negative. -/
theorem claim_C7_amended_standings (db : DB) (t : Team) (month year : ℕ) :
    List.Sorted (fun x y : ℕ × MonthlyView => y.2.total ≤ x.2.total)
      (get_team_standings_by_month db t month year)
    ∧ (∀ p ∈ get_team_standings_by_month db t month year,
        monthlyRows db t month year ≠ [] →
        memberMonthlyEntries (monthlyRows db t month year) p.1 = [] →
        p.2 = MonthlyView.full zeroMonthly)
    ∧ (∀ p ∈ get_team_standings_by_month db t month year,
        monthlyRows db t month year = [] →
        p.2 = MonthlyView.basic 0 0 0) := by
  haveI ht : IsTotal (ℕ × MonthlyView)
      (fun a b => (fun p : ℕ × MonthlyView => p.2.total) b
        ≤ (fun p : ℕ × MonthlyView => p.2.total) a) :=
    ⟨fun x y => le_total _ _⟩
  haveI htr : IsTrans (ℕ × MonthlyView)
      (fun a b => (fun p : ℕ × MonthlyView => p.2.total) b
        ≤ (fun p : ℕ × MonthlyView => p.2.total) a) :=
    ⟨fun _ _ _ h1 h2 => le_trans h2 h1⟩
  refine ⟨?_, ?_, ?_⟩
  · unfold get_team_standings_by_month sortDescBy
    dsimp only
    split_ifs
    · exact List.sorted_insertionSort _ _
    · exact List.sorted_insertionSort _ _
  · intro p hp hne hent
    unfold get_team_standings_by_month at hp
    dsimp only at hp
    rw [if_neg (by simpa [List.isEmpty_iff] using hne)] at hp
    have hp2 : p ∈ (teamMembers db t).map (fun m =>
        if (memberMonthlyEntries (monthlyRows db t month year) m.id).isEmpty = true then
          (m.id, MonthlyView.full zeroMonthly)
        else (m.id, MonthlyView.full
          (monthlyAgg t (memberMonthlyEntries (monthlyRows db t month year) m.id)))) := by
      have hperm := List.perm_insertionSort
        (fun a b : ℕ × MonthlyView => b.2.total ≤ a.2.total)
        ((teamMembers db t).map (fun m =>
          if (memberMonthlyEntries (monthlyRows db t month year) m.id).isEmpty = true then
            (m.id, MonthlyView.full zeroMonthly)
          else (m.id, MonthlyView.full
            (monthlyAgg t (memberMonthlyEntries (monthlyRows db t month year) m.id)))))
      exact hperm.mem_iff.mp hp
    obtain ⟨m, -, hm⟩ := List.mem_map.mp hp2
    by_cases hc : (memberMonthlyEntries (monthlyRows db t month year) m.id).isEmpty
    · rw [if_pos hc] at hm
      rw [← hm]
    · rw [if_neg hc] at hm
      exfalso
      apply hc
      rw [List.isEmpty_iff]
      have : p.1 = m.id := by rw [← hm]
      rw [← this]
      exact hent
  · intro p hp he
    unfold get_team_standings_by_month at hp
    dsimp only at hp
    rw [if_pos (by simpa [List.isEmpty_iff] using he)] at hp
    have hp2 : p ∈ (teamMembers db t).map
        (fun m => (m.id, MonthlyView.basic 0 0 0)) := by
      have hperm := List.perm_insertionSort
        (fun a b : ℕ × MonthlyView => b.2.total ≤ a.2.total)
        ((teamMembers db t).map (fun m => (m.id, MonthlyView.basic 0 0 0)))
      exact hperm.mem_iff.mp hp
    obtain ⟨m, -, hm⟩ := List.mem_map.mp hp2
    rw [← hm]

/-- Team 1 with five members; members 1 to 4 share the complete May 2024
session of `dbTie` (members 1 and 2 tied), member 5 has no rows. -/
def dbC7 : DB := ⟨[⟨1, 1⟩, ⟨2, 1⟩, ⟨3, 1⟩, ⟨4, 1⟩, ⟨5, 1⟩], [rt1, rt2, rt3, rt4]⟩

theorem pyRound_three_halves : pyRound (3/2) = 2 := by
  unfold pyRound
  norm_num

theorem pyRound_three : pyRound 3 = 3 := by
  unfold pyRound
  norm_num

theorem pyRound_four : pyRound 4 = 4 := by
  unfold pyRound
  norm_num

theorem monthlyPlacement_rt1 : monthlyPlacement [rt1, rt2, rt3, rt4] rt1 = 3/2 := by
  unfold monthlyPlacement
  have hsr : sortDescBy (fun s : RawScore => s.score) [rt1, rt2, rt3, rt4]
      = [rt1, rt2, rt3, rt4] := by decide
  have hss : List.map (fun s : RawScore => s.score) [rt1, rt2, rt3, rt4]
      = [30000, 30000, 20000, 10000] := by decide
  have h1 : tieCount [30000, 30000, 20000, 10000] rt1.score = 2 := by decide
  have h2 : firstTiedIdx [30000, 30000, 20000, 10000] rt1.score = 0 := by decide
  simp only [hsr, hss, h1, h2]
  rw [if_pos (by norm_num), tieAvg_eq _ _ (by norm_num)]
  norm_num

theorem monthlyPlacement_rt2 : monthlyPlacement [rt1, rt2, rt3, rt4] rt2 = 3/2 := by
  unfold monthlyPlacement
  have hsr : sortDescBy (fun s : RawScore => s.score) [rt1, rt2, rt3, rt4]
      = [rt1, rt2, rt3, rt4] := by decide
  have hss : List.map (fun s : RawScore => s.score) [rt1, rt2, rt3, rt4]
      = [30000, 30000, 20000, 10000] := by decide
  have h1 : tieCount [30000, 30000, 20000, 10000] rt2.score = 2 := by decide
  have h2 : firstTiedIdx [30000, 30000, 20000, 10000] rt2.score = 0 := by decide
  simp only [hsr, hss, h1, h2]
  rw [if_pos (by norm_num), tieAvg_eq _ _ (by norm_num)]
  norm_num

theorem monthlyPlacement_rt3 : monthlyPlacement [rt1, rt2, rt3, rt4] rt3 = 3 := by
  unfold monthlyPlacement
  have hsr : sortDescBy (fun s : RawScore => s.score) [rt1, rt2, rt3, rt4]
      = [rt1, rt2, rt3, rt4] := by decide
  have hss : List.map (fun s : RawScore => s.score) [rt1, rt2, rt3, rt4]
      = [30000, 30000, 20000, 10000] := by decide
  have h1 : tieCount [30000, 30000, 20000, 10000] rt3.score = 1 := by decide
  have h3 : List.findIdx (fun s : RawScore => s.memberId = rt3.memberId)
      [rt1, rt2, rt3, rt4] = 2 := by decide
  simp only [hsr, hss, h1, h3]
  norm_num

theorem monthlyPlacement_rt4 : monthlyPlacement [rt1, rt2, rt3, rt4] rt4 = 4 := by
  unfold monthlyPlacement
  have hsr : sortDescBy (fun s : RawScore => s.score) [rt1, rt2, rt3, rt4]
      = [rt1, rt2, rt3, rt4] := by decide
  have hss : List.map (fun s : RawScore => s.score) [rt1, rt2, rt3, rt4]
      = [30000, 30000, 20000, 10000] := by decide
  have h1 : tieCount [30000, 30000, 20000, 10000] rt4.score = 1 := by decide
  have h3 : List.findIdx (fun s : RawScore => s.memberId = rt4.memberId)
      [rt1, rt2, rt3, rt4] = 3 := by decide
  simp only [hsr, hss, h1, h3]
  norm_num

theorem monthlyCalculated_rt1 :
    monthlyCalculated teamW [rt1, rt2, rt3, rt4] rt1 = 10 := by
  unfold monthlyCalculated
  have hsr : sortDescBy (fun s : RawScore => s.score) [rt1, rt2, rt3, rt4]
      = [rt1, rt2, rt3, rt4] := by decide
  have hss : List.map (fun s : RawScore => s.score) [rt1, rt2, rt3, rt4]
      = [30000, 30000, 20000, 10000] := by decide
  have h1 : tieCount [30000, 30000, 20000, 10000] rt1.score = 2 := by decide
  have h2 : firstTiedIdx [30000, 30000, 20000, 10000] rt1.score = 0 := by decide
  simp only [hsr, hss, monthlyPlacement_rt1, resolvedUma, h1, h2]
  norm_num [List.range_succ, Team.umaMap, teamW, rt1]

theorem monthlyCalculated_rt2 :
    monthlyCalculated teamW [rt1, rt2, rt3, rt4] rt2 = 10 := by
  unfold monthlyCalculated
  have hsr : sortDescBy (fun s : RawScore => s.score) [rt1, rt2, rt3, rt4]
      = [rt1, rt2, rt3, rt4] := by decide
  have hss : List.map (fun s : RawScore => s.score) [rt1, rt2, rt3, rt4]
      = [30000, 30000, 20000, 10000] := by decide
  have h1 : tieCount [30000, 30000, 20000, 10000] rt2.score = 2 := by decide
  have h2 : firstTiedIdx [30000, 30000, 20000, 10000] rt2.score = 0 := by decide
  simp only [hsr, hss, monthlyPlacement_rt2, resolvedUma, h1, h2]
  norm_num [List.range_succ, Team.umaMap, teamW, rt2]

theorem monthlyCalculated_rt3 :
    monthlyCalculated teamW [rt1, rt2, rt3, rt4] rt3 = -15 := by
  unfold monthlyCalculated
  have hsr : sortDescBy (fun s : RawScore => s.score) [rt1, rt2, rt3, rt4]
      = [rt1, rt2, rt3, rt4] := by decide
  have hss : List.map (fun s : RawScore => s.score) [rt1, rt2, rt3, rt4]
      = [30000, 30000, 20000, 10000] := by decide
  have h1 : tieCount [30000, 30000, 20000, 10000] rt3.score = 1 := by decide
  have hpy : pyInt 3 = 3 := by
    rw [pyInt_eq_floor _ (by norm_num)]
    norm_num
  simp only [hsr, hss, monthlyPlacement_rt3, resolvedUma, h1]
  norm_num [Team.umaMap, teamW, rt3, hpy]

theorem monthlyCalculated_rt4 :
    monthlyCalculated teamW [rt1, rt2, rt3, rt4] rt4 = -35 := by
  unfold monthlyCalculated
  have hsr : sortDescBy (fun s : RawScore => s.score) [rt1, rt2, rt3, rt4]
      = [rt1, rt2, rt3, rt4] := by decide
  have hss : List.map (fun s : RawScore => s.score) [rt1, rt2, rt3, rt4]
      = [30000, 30000, 20000, 10000] := by decide
  have h1 : tieCount [30000, 30000, 20000, 10000] rt4.score = 1 := by decide
  have hpy : pyInt 4 = 4 := by
    rw [pyInt_eq_floor _ (by norm_num)]
    norm_num
  simp only [hsr, hss, monthlyPlacement_rt4, resolvedUma, h1]
  norm_num [Team.umaMap, teamW, rt4, hpy]

/-- The full monthly standings of `dbC7` for May 2024: member 5, with zero
qualifying sessions and total 0, lands in the middle — after the tied
winners but before the members with negative totals. -/
theorem standings_dbC7 :
    get_team_standings_by_month dbC7 teamW 5 2024
      = [(1, MonthlyView.full ⟨10, 1, 10, 3/2, 0, 0, 1, 0, 0⟩),
         (2, MonthlyView.full ⟨10, 1, 10, 3/2, 0, 0, 1, 0, 0⟩),
         (5, MonthlyView.full zeroMonthly),
         (3, MonthlyView.full ⟨-15, 1, -15, 3, 0, 0, 0, 1, 0⟩),
         (4, MonthlyView.full ⟨-35, 1, -35, 4, 0, 0, 0, 0, 1⟩)] := by
  have hrows : monthlyRows dbC7 teamW 5 2024 = [rt1, rt2, rt3, rt4] := by decide
  have hmem : teamMembers dbC7 teamW
      = [⟨1, 1⟩, ⟨2, 1⟩, ⟨3, 1⟩, ⟨4, 1⟩, ⟨5, 1⟩] := by decide
  have hent1 : memberMonthlyEntries [rt1, rt2, rt3, rt4] 1
      = [([rt1, rt2, rt3, rt4], rt1)] := by decide
  have hent2 : memberMonthlyEntries [rt1, rt2, rt3, rt4] 2
      = [([rt1, rt2, rt3, rt4], rt2)] := by decide
  have hent3 : memberMonthlyEntries [rt1, rt2, rt3, rt4] 3
      = [([rt1, rt2, rt3, rt4], rt3)] := by decide
  have hent4 : memberMonthlyEntries [rt1, rt2, rt3, rt4] 4
      = [([rt1, rt2, rt3, rt4], rt4)] := by decide
  have hent5 : memberMonthlyEntries [rt1, rt2, rt3, rt4] 5 = [] := by decide
  have hagg1 : monthlyAgg teamW [([rt1, rt2, rt3, rt4], rt1)]
      = ⟨10, 1, 10, 3/2, 0, 0, 1, 0, 0⟩ := by
    unfold monthlyAgg
    simp only [List.map_cons, List.map_nil, monthlyPlacement_rt1,
      monthlyCalculated_rt1, List.sum_cons, List.sum_nil, List.length_cons,
      List.length_nil, List.filter, pyRound_three_halves]
    norm_num [rt1, teamW]
  have hagg2 : monthlyAgg teamW [([rt1, rt2, rt3, rt4], rt2)]
      = ⟨10, 1, 10, 3/2, 0, 0, 1, 0, 0⟩ := by
    unfold monthlyAgg
    simp only [List.map_cons, List.map_nil, monthlyPlacement_rt2,
      monthlyCalculated_rt2, List.sum_cons, List.sum_nil, List.length_cons,
      List.length_nil, List.filter, pyRound_three_halves]
    norm_num [rt2, teamW]
  have hagg3 : monthlyAgg teamW [([rt1, rt2, rt3, rt4], rt3)]
      = ⟨-15, 1, -15, 3, 0, 0, 0, 1, 0⟩ := by
    unfold monthlyAgg
    simp only [List.map_cons, List.map_nil, monthlyPlacement_rt3,
      monthlyCalculated_rt3, List.sum_cons, List.sum_nil, List.length_cons,
      List.length_nil, List.filter, pyRound_three]
    norm_num [rt3, teamW]
  have hagg4 : monthlyAgg teamW [([rt1, rt2, rt3, rt4], rt4)]
      = ⟨-35, 1, -35, 4, 0, 0, 0, 0, 1⟩ := by
    unfold monthlyAgg
    simp only [List.map_cons, List.map_nil, monthlyPlacement_rt4,
      monthlyCalculated_rt4, List.sum_cons, List.sum_nil, List.length_cons,
      List.length_nil, List.filter, pyRound_four]
    norm_num [rt4, teamW]
  unfold get_team_standings_by_month
  dsimp only
  rw [hrows, hmem]
  rw [if_neg (by norm_num)]
  simp only [List.map_cons, List.map_nil, hent1, hent2, hent3, hent4, hent5,
    hagg1, hagg2, hagg3, hagg4, List.isEmpty_cons, List.isEmpty_nil]
  norm_num [sortDescBy, List.insertionSort, List.orderedInsert, MonthlyView.total]

/-- Claim C7 (counterexample): members with zero qualifying sessions do not
sort last.  In `dbC7`, member 5 has no qualifying session (all-zero stats,
total 0) while members 3 and 4 each have one qualifying session with
negative monthly totals; the returned order is 1, 2, 5, 3, 4, so member 5
precedes members 3 and 4. -/
theorem claim_C7_counterexample :
    ((get_team_standings_by_month dbC7 teamW 5 2024).map (fun p => p.1))
      = [1, 2, 5, 3, 4]
    ∧ memberMonthlyEntries (monthlyRows dbC7 teamW 5 2024) 5 = []
    ∧ (memberMonthlyEntries (monthlyRows dbC7 teamW 5 2024) 3).length = 1 := by
  refine ⟨?_, by decide, by decide⟩
  rw [standings_dbC7]
  rfl

theorem claim_C7_witness :
    List.Sorted (fun x y : ℕ × MonthlyView => y.2.total ≤ x.2.total)
      (get_team_standings_by_month dbC7 teamW 5 2024)
    ∧ (5, MonthlyView.full zeroMonthly).2 = MonthlyView.full zeroMonthly := by
  have h := claim_C7_amended_standings dbC7 teamW 5 2024
  refine ⟨h.1, ?_⟩
  exact h.2.1 (5, MonthlyView.full zeroMonthly)
    (by rw [standings_dbC7]; simp) (by decide) (by decide)

/-- `dbS1` plus a member of a second team who has a row sharing session
id 1. -/
def dbC8 : DB :=
  ⟨[⟨1, 1⟩, ⟨2, 1⟩, ⟨3, 1⟩, ⟨4, 1⟩, ⟨5, 1⟩, ⟨6, 1⟩, ⟨7, 1⟩, ⟨8, 1⟩, ⟨9, 2⟩],
   [r1, r2, r3, r4, ⟨9, 2, 25000, 0, 1, some 1, 2024, 5⟩]⟩

theorem claim_C8_witness :
    (sessionScores (update_session_scores dbC8 teamW 1 sdFresh (2024, 6)).1
        teamW.id 1).length = 4
    ∧ (((sessionScores (update_session_scores dbC8 teamW 1 sdFresh (2024, 6)).1
        teamW.id 1).map (fun r => r.memberId)).Nodup)
    ∧ (update_session_scores dbC8 teamW 1 sdFresh (2024, 6)).1.scores.filter
        (fun r => !(r.teamId = teamW.id : Bool))
      = dbC8.scores.filter (fun r => !(r.teamId = teamW.id : Bool)) :=
  claim_C8_update_exactly_four dbC8 teamW 1 sdFresh (2024, 6)
    (mkPendingScores teamW 1 sdFresh) rfl

end Janki
